import Mathlib

/-!
Verification development for the spotify_tunegenie_updater repository.

The SQLite database layer (`database.py`) is modelled as explicit state:
a `DB` value carries the three tables (`playlists`, `tracks`,
`playlist_tracks`) as lists of rows, and each method of `CacheDatabase`
becomes a pure function from a `DB` (plus a `now` timestamp standing for
SQL `CURRENT_TIMESTAMP`) to a new `DB` and/or a query result.  The
updater layer (`spotify_updater.py`) is modelled with the remote Spotify
and TuneGenie services replaced by explicit parameters describing the
remote responses; every branch of the Python code is mirrored, including
the Python truthiness tests (`if cached_uri:`, `if cached_tracks:`,
`if not self.spotify_config[...]`).  SQL timestamps are natural numbers
(seconds); Python sets are modelled as `Finset`, with `Finset.sort` as
the determinization of Python's unspecified set iteration order.
-/

namespace TG

/-- One row of the `tracks` table (schema in `database.py`,
`init_database`). -/
structure TrackRow where
  tunegenie_id : String
  tunegenie_artist : String
  tunegenie_title : String
  spotify_uri : Option String
  spotify_artist : Option String
  spotify_title : Option String
  spotify_album : Option String
  search_key : String
  created_at : Nat
  last_found : Nat
deriving Repr, DecidableEq

/-- One row of the `playlist_tracks` junction table. -/
structure PlaylistTrackRow where
  playlist_id : String
  tunegenie_id : String
  position : Int
  added_at : Nat
deriving Repr, DecidableEq

/-- One row of the `playlists` table. -/
structure PlaylistRow where
  id : String
  name : String
  ptype : String
  last_updated : Nat
deriving Repr, DecidableEq

/-- The whole SQLite database state. -/
structure DB where
  playlists : List PlaylistRow
  tracks : List TrackRow
  playlist_tracks : List PlaylistTrackRow
deriving Repr, DecidableEq

/-- Python truthiness of an optional string (`None` and `""` are falsy). -/
def truthyOpt : Option String → Bool
  | none => false
  | some s => s != ""

/-- `CacheDatabase.normalize_search_key`: `f"{artist.lower().strip()}_{title.lower().strip()}"`. -/
def normalize_search_key (artist title : String) : String :=
  artist.toLower.trim ++ "_" ++ title.toLower.trim

/-- `CacheDatabase.add_or_update_playlist`: `INSERT OR REPLACE INTO playlists`. -/
def add_or_update_playlist (db : DB) (now : Nat) (playlist_id nm ptype : String) : DB :=
  { db with playlists :=
      db.playlists.filter (fun p => p.id != playlist_id) ++
        [⟨playlist_id, nm, ptype, now⟩] }

/-- `CacheDatabase.get_cached_track_search`: the `SELECT` filters on
`spotify_uri IS NOT NULL`; on a hit the row's `last_found` is refreshed.
Returns the fetched URI (if any) and the possibly-updated database. -/
def get_cached_track_search (db : DB) (now : Nat) (tunegenie_id : String) :
    Option String × DB :=
  match db.tracks.find? (fun t => t.tunegenie_id == tunegenie_id && t.spotify_uri.isSome) with
  | some t =>
      (t.spotify_uri,
       { db with tracks := db.tracks.map (fun r =>
           if r.tunegenie_id == tunegenie_id then { r with last_found := now } else r) })
  | none => (none, db)

/-- `CacheDatabase.cache_track_search`: `INSERT OR REPLACE INTO tracks`
with `created_at` and `last_found` set to `CURRENT_TIMESTAMP`. -/
def cache_track_search (db : DB) (now : Nat) (tunegenie_id tunegenie_artist tunegenie_title : String)
    (spotify_uri spotify_artist spotify_title spotify_album : Option String) : DB :=
  { db with tracks :=
      db.tracks.filter (fun t => t.tunegenie_id != tunegenie_id) ++
        [⟨tunegenie_id, tunegenie_artist, tunegenie_title, spotify_uri, spotify_artist,
          spotify_title, spotify_album, normalize_search_key tunegenie_artist tunegenie_title,
          now, now⟩] }

/-- Rows of `playlist_tracks` for one playlist, sorted by `position`
(the `ORDER BY pt.position` of `get_playlist_tracks`). -/
def ptSortedByPosition (rows : List PlaylistTrackRow) : List PlaylistTrackRow :=
  List.insertionSort (fun a b => a.position ≤ b.position) rows

/-- The ordered result set of the SQL query inside
`CacheDatabase.get_playlist_tracks`: join `playlist_tracks` with
`tracks` on `tunegenie_id`, keep non-null URIs, order by `position`. -/
def playlist_tracks_query (db : DB) (playlist_id : String) : List String :=
  (ptSortedByPosition (db.playlist_tracks.filter (fun r => r.playlist_id == playlist_id))).flatMap
    (fun r =>
      (db.tracks.filter (fun t =>
          t.tunegenie_id == r.tunegenie_id && t.spotify_uri.isSome)).filterMap
        (fun t => t.spotify_uri))

/-- `CacheDatabase.get_playlist_tracks`: the Python method wraps the
ordered query result in a set comprehension, so order is erased. -/
def get_playlist_tracks (db : DB) (playlist_id : String) : Finset String :=
  (playlist_tracks_query db playlist_id).toFinset

/-- One `INSERT OR IGNORE INTO playlist_tracks` (primary key
`(playlist_id, tunegenie_id)`): skipped if the pair is present. -/
def ptInsertOrIgnore (tbl : List PlaylistTrackRow) (row : PlaylistTrackRow) :
    List PlaylistTrackRow :=
  if tbl.any (fun x => x.playlist_id == row.playlist_id && x.tunegenie_id == row.tunegenie_id)
  then tbl else tbl ++ [row]

/-- The rows produced by one `INSERT OR IGNORE ... SELECT ? , tunegenie_id, ?
FROM tracks WHERE spotify_uri = ?` statement of `update_playlist_tracks`. -/
def insertSelectRows (tracks : List TrackRow) (playlist_id : String) (pos : Int) (added : Nat)
    (uri : String) : List PlaylistTrackRow :=
  (tracks.filter (fun t => t.spotify_uri == some uri)).map
    (fun t => ⟨playlist_id, t.tunegenie_id, pos, added⟩)

/-- `CacheDatabase.update_playlist_tracks`: delete all rows of the
playlist, then insert one row per `(position, uri)` of `enumerate(uris)`
for every track whose `spotify_uri` matches, ignoring key conflicts. -/
def update_playlist_tracks (db : DB) (now : Nat) (playlist_id : String)
    (spotify_track_uris : List String) : DB :=
  let cleared := db.playlist_tracks.filter (fun r => r.playlist_id != playlist_id)
  let newRows := (spotify_track_uris.enum).flatMap
    (fun pu => insertSelectRows db.tracks playlist_id (Int.ofNat pu.1) now pu.2)
  { db with playlist_tracks := newRows.foldl ptInsertOrIgnore cleared }

/-- `CacheDatabase.update_playlist_tracks_with_timestamps`: as
`update_playlist_tracks`, with an explicit `added_at` per URI. -/
def update_playlist_tracks_with_timestamps (db : DB) (playlist_id : String)
    (track_data : List (String × Nat)) : DB :=
  let cleared := db.playlist_tracks.filter (fun r => r.playlist_id != playlist_id)
  let newRows := (track_data.enum).flatMap
    (fun pu => insertSelectRows db.tracks playlist_id (Int.ofNat pu.1) pu.2.2 pu.2.1)
  { db with playlist_tracks := newRows.foldl ptInsertOrIgnore cleared }

/-- Positions of one playlist's rows, in table order. -/
def positionsOf (db : DB) (playlist_id : String) : List Int :=
  (db.playlist_tracks.filter (fun r => r.playlist_id == playlist_id)).map (fun r => r.position)

/-- `SELECT COALESCE(MAX(position), -1) FROM playlist_tracks WHERE playlist_id = ?`. -/
def maxPosition (db : DB) (playlist_id : String) : Int :=
  match positionsOf db playlist_id with
  | [] => -1
  | p :: ps => ps.foldl max p

/-- The insert loop of `CacheDatabase.add_tracks_to_playlist_cache`:
`for i, tunegenie_id in enumerate(tunegenie_ids): position = max_position + i + 1;
INSERT OR IGNORE ...`. -/
def add_tracks_loop (playlist_id : String) (maxPos : Int) (now : Nat) :
    List PlaylistTrackRow → Nat → List String → List PlaylistTrackRow
  | tbl, _, [] => tbl
  | tbl, i, tid :: rest =>
      add_tracks_loop playlist_id maxPos now
        (ptInsertOrIgnore tbl ⟨playlist_id, tid, maxPos + (i : Int) + 1, now⟩) (i + 1) rest

/-- `CacheDatabase.add_tracks_to_playlist_cache`. -/
def add_tracks_to_playlist_cache (db : DB) (now : Nat) (playlist_id : String)
    (tunegenie_ids : List String) : DB :=
  { db with playlist_tracks :=
      (add_tracks_loop playlist_id (maxPosition db playlist_id) now db.playlist_tracks 0
        tunegenie_ids) }

/-- `CacheDatabase.get_playlist_track_count`: `SELECT COUNT(*) ... WHERE playlist_id = ?`. -/
def get_playlist_track_count (db : DB) (playlist_id : String) : Nat :=
  (db.playlist_tracks.filter (fun r => r.playlist_id == playlist_id)).length

/-- Eviction order of `get_oldest_tracks_from_playlist`:
`ORDER BY pt.added_at ASC, pt.position ASC`. -/
def oldestLE (a b : PlaylistTrackRow × String) : Prop :=
  a.1.added_at < b.1.added_at ∨ (a.1.added_at = b.1.added_at ∧ a.1.position ≤ b.1.position)

instance : DecidableRel oldestLE := fun a b => by
  unfold oldestLE; infer_instance

/-- The join inside `get_oldest_tracks_from_playlist`: each playlist row
paired with the non-null `spotify_uri` of every matching track. -/
def oldestJoin (db : DB) (playlist_id : String) : List (PlaylistTrackRow × String) :=
  (db.playlist_tracks.filter (fun r => r.playlist_id == playlist_id)).flatMap
    (fun r =>
      (db.tracks.filter (fun t =>
          t.tunegenie_id == r.tunegenie_id && t.spotify_uri.isSome)).filterMap
        (fun t => t.spotify_uri.map (fun u => (r, u))))

/-- `CacheDatabase.get_oldest_tracks_from_playlist`: join, order by
`(added_at, position)` ascending, `LIMIT count`, select the URI. -/
def get_oldest_tracks_from_playlist (db : DB) (playlist_id : String) (count : Nat) :
    List String :=
  ((List.insertionSort oldestLE (oldestJoin db playlist_id)).take count).map (fun p => p.2)

/-- `CacheDatabase.remove_tracks_from_playlist_cache`: for each URI,
delete the playlist's rows whose `tunegenie_id` resolves to that URI. -/
def remove_tracks_from_playlist_cache (db : DB) (playlist_id : String)
    (spotify_uris : List String) : DB :=
  { db with playlist_tracks :=
      (spotify_uris.foldl
        (fun tbl u => tbl.filter (fun r =>
          !(r.playlist_id == playlist_id &&
            db.tracks.any (fun t => t.tunegenie_id == r.tunegenie_id && t.spotify_uri == some u))))
        db.playlist_tracks) }

/-- The statistics record of `CacheDatabase.get_cache_stats`. -/
structure CacheStats where
  successful_searches : Nat
  failed_searches : Nat
  total_searches : Nat
  playlist_count : Nat
  playlist_track_count : Nat
deriving Repr, DecidableEq

/-- `CacheDatabase.get_cache_stats`. -/
def get_cache_stats (db : DB) : CacheStats :=
  let succ := (db.tracks.filter (fun t => t.spotify_uri.isSome)).length
  let fail := (db.tracks.filter (fun t => t.spotify_uri.isNone)).length
  ⟨succ, fail, succ + fail, db.playlists.length, db.playlist_tracks.length⟩

/-- `CacheDatabase.cleanup_old_data`: `DELETE FROM tracks WHERE
last_found < datetime('now', '-{days} days') AND spotify_uri IS NULL`,
returning `cursor.rowcount`.  The SQL cutoff `datetime('now','-d days')`
is `now - d * 86400` seconds. -/
def cleanup_old_data (db : DB) (now days : Nat) : DB × Nat :=
  let cutoff := now - days * 86400
  let remaining := db.tracks.filter (fun t => !(t.last_found < cutoff && t.spotify_uri.isNone))
  ({ db with tracks := remaining }, db.tracks.length - remaining.length)

/-! Configuration layer (`config.py`). -/

/-- The `spotify` section of `config.json` as read by `load_config`. -/
structure SpotifyFileConfig where
  client_id : String
  client_secret : String
  refresh_token : String
  playlist_id : String
deriving Repr, DecidableEq

/-- `get_spotify_config` in `config.py`: the dictionary it builds,
as an ordered association list of its keys and values. -/
def get_spotify_config (c : SpotifyFileConfig) : List (String × String) :=
  [("client_id", c.client_id),
   ("client_secret", c.client_secret),
   ("refresh_token", c.refresh_token),
   ("playlist_id", c.playlist_id)]

/-- Python dictionary subscript `d[k]`: `some` value on a present key,
`none` models a raised `KeyError`. -/
def dictLookup (d : List (String × String)) (k : String) : Option String :=
  (d.find? (fun kv => kv.1 == k)).map (fun kv => kv.2)

/-- A `self.spotify_config[key]` access as an `Except`: `KeyError`
propagates as `.error key`. -/
def configAccess (cfg : List (String × String)) (k : String) : Except String String :=
  match dictLookup cfg k with
  | some v => Except.ok v
  | none => Except.error k

/-- The `self.spotify_config['daily_playlist_id']` read performed by
`SpotifyUpdater.clear_playlist` when it builds the playlist-tracks URL. -/
def clear_playlist_config_read (cfg : List (String × String)) : Except String String :=
  configAccess cfg "daily_playlist_id"

/-- The `self.spotify_config['cumulative_playlist_id']` read performed at
the top of `SpotifyUpdater.get_existing_tracks_from_cumulative_playlist`
and `SpotifyUpdater.trim_cumulative_playlist_if_needed`. -/
def cumulative_config_read (cfg : List (String × String)) : Except String String :=
  configAccess cfg "cumulative_playlist_id"

/-- The `self.spotify_config['max_cumulative_tracks']` read performed by
`SpotifyUpdater.trim_cumulative_playlist_if_needed`. -/
def max_tracks_config_read (cfg : List (String × String)) : Except String String :=
  configAccess cfg "max_cumulative_tracks"

/-! Updater layer (`spotify_updater.py`).  Remote services are supplied
as explicit parameters; playlist ids and limits that the Python code
reads from `self.spotify_config` are passed as parameters where a claim
concerns a method's algorithm rather than the configuration dictionary
itself (claim C9 pins down the dictionary's actual contents). -/

/-- Outcome of one remote `GET /v1/search` request. -/
inductive RemoteSearchResult where
  | found (uri : String) (spotify_artist spotify_title spotify_album : Option String)
  | notFound
  | raised
deriving Repr, DecidableEq

/-- `SpotifyUpdater.search_spotify_track`.  Returns the resolved URI (if
any), the updated cache database, and whether a remote search request
was issued.  `remote` is the outcome the Spotify search endpoint would
return for this query. -/
def search_spotify_track (hasToken : Bool) (remote : RemoteSearchResult) (db : DB) (now : Nat)
    (tunegenie_id artist title : String) : Option String × DB × Bool :=
  if !hasToken then (none, db, false)
  else
    let hit := get_cached_track_search db now tunegenie_id
    if truthyOpt hit.1 then (hit.1, hit.2, false)
    else
      match remote with
      | RemoteSearchResult.found uri a t al =>
          (some uri, cache_track_search hit.2 now tunegenie_id artist title (some uri) a t al,
           true)
      | RemoteSearchResult.notFound =>
          (none, cache_track_search hit.2 now tunegenie_id artist title none none none none,
           true)
      | RemoteSearchResult.raised => (none, hit.2, true)

/-- Python's `str.startswith`, via character-list comparison. -/
def strStartsWith (s pre : String) : Bool :=
  pre.data.isPrefixOf s.data

/-- Fuel-driven worker for `chunksOf` (the fuel starts at the list
length, which bounds the number of non-empty chunks). -/
def chunksOfAux (n : Nat) : Nat → List String → List (List String)
  | _, [] => []
  | 0, _ :: _ => []
  | Nat.succ fuel, a :: t =>
      if n = 0 then [] else (a :: t).take n :: chunksOfAux n fuel ((a :: t).drop n)

/-- Batching `for i in range(0, len, n)` over a list. -/
def chunksOf (n : Nat) (l : List String) : List (List String) :=
  chunksOfAux n l.length l

/-- `SpotifyUpdater.add_tracks_to_cumulative_playlist_batched`: batches
of 50, URIs validated with `startswith('spotify:track:')`, per-batch
remote success given by `batchOk`; returns `total_added > 0`. -/
def add_tracks_to_cumulative_playlist_batched (hasToken : Bool) (cumulative_id : Option String)
    (batchOk : Nat → Bool) (track_uris : List String) : Bool :=
  if !hasToken || track_uris.isEmpty then false
  else if !truthyOpt cumulative_id then false
  else
    let batches := chunksOf 50 track_uris
    let total_added : Nat := ((batches.enum).map (fun ib =>
      let valid := ib.2.filter (fun u => strStartsWith u "spotify:track:")
      if valid.isEmpty then 0
      else if batchOk ib.1 then valid.length else 0)).sum
    decide (0 < total_added)

/-- `SpotifyUpdater.sync_playlist_cache`: record the playlist, then pull
remote membership and rewrite the cached membership with the remote
timestamps.  `remote = none` models a raised paginated read (the
`except` branch: the membership rewrite is skipped but the playlist row
was already upserted). -/
def sync_playlist_cache (hasToken : Bool) (playlist_id nm ptype : String)
    (remote : Option (List (String × Nat))) (db : DB) (now : Nat) : DB :=
  if !hasToken || playlist_id == "" then db
  else
    let db1 := add_or_update_playlist db now playlist_id nm ptype
    match remote with
    | none => db1
    | some rows => update_playlist_tracks_with_timestamps db1 playlist_id rows

/-- `SpotifyUpdater.get_existing_tracks_from_cumulative_playlist`, with
the configured cumulative playlist id and the remote membership (used
only on a cache miss) as parameters.  The returned Python set of URIs
is carried as the duplicate-free list of the cache query's results. -/
def get_existing_tracks_from_cumulative_playlist (cumulative_id : Option String)
    (remoteCum : Option (List (String × Nat))) (db : DB) (now : Nat) : List String × DB :=
  if !truthyOpt cumulative_id then ([], db)
  else
    let pid := cumulative_id.getD ""
    let cached := (playlist_tracks_query db pid).dedup
    if cached ≠ [] then (cached, db)
    else
      let db1 := sync_playlist_cache true pid "Cumulative" "cumulative" remoteCum db now
      ((playlist_tracks_query db1 pid).dedup, db1)

/-- `SpotifyUpdater.trim_cumulative_playlist_if_needed`, with the
configured id and maximum and the remote-deletion outcome as
parameters. -/
def trim_cumulative_playlist_if_needed (cumulative_id : Option String) (maxTracks : Nat)
    (removeOk : Bool) (db : DB) : Bool × DB :=
  if !truthyOpt cumulative_id then (true, db)
  else
    let pid := cumulative_id.getD ""
    let current := get_playlist_track_count db pid
    if current ≤ maxTracks then (true, db)
    else
      let toRemove := current - maxTracks + 50
      let oldest := get_oldest_tracks_from_playlist db pid toRemove
      if oldest.isEmpty then (true, db)
      else if removeOk then (true, remove_tracks_from_playlist_cache db pid oldest)
      else (false, db)

/-- `SpotifyUpdater.add_new_tracks_to_cumulative_playlist`.  The Python
sets `existing_tracks` and `set(new_tracks)` are carried as
duplicate-free lists (`List.dedup` of the underlying query results);
Python's unspecified set iteration order is determinized by keeping the
query order, existing elements first. -/
def add_new_tracks_to_cumulative_playlist (cumulative_id : Option String) (maxTracks : Nat)
    (batchOk : Nat → Bool) (removeOk : Bool) (remoteCum : Option (List (String × Nat)))
    (db : DB) (now : Nat) (track_uris : List String) : Bool × DB :=
  if !truthyOpt cumulative_id then (true, db)
  else
    let pid := cumulative_id.getD ""
    let ex := get_existing_tracks_from_cumulative_playlist cumulative_id remoteCum db now
    let new_tracks := track_uris.filter (fun u => !(ex.1.contains u))
    if new_tracks.isEmpty then (true, ex.2)
    else
      let success := add_tracks_to_cumulative_playlist_batched true cumulative_id batchOk
        new_tracks
      if success then
        let updated := ex.1 ++ new_tracks.dedup
        let db2 := update_playlist_tracks ex.2 now pid updated
        let db3 := (trim_cumulative_playlist_if_needed cumulative_id maxTracks removeOk db2).2
        (true, db3)
      else (false, ex.2)

/-! The main run (`SpotifyUpdater.run`), modelled up to and including
the empty-window exit; the resolution/replacement phase that follows a
non-empty fetch is reported as an explicit `proceeds` outcome. -/

/-- One raw item of the TuneGenie API response array. -/
structure RawItem where
  artist : Option String
  song : Option String
  sid : Option String
  played_at : Option String
deriving Repr, DecidableEq

/-- One parsed source event (`song_info` in `fetch_tunegenie_songs`). -/
structure SourceEvent where
  tunegenie_id : String
  artist : String
  title : String
  timestamp : String
deriving Repr, DecidableEq

/-- Outcome of the TuneGenie feed request. -/
inductive FetchOutcome where
  | ok (items : List RawItem)
  | raised
deriving Repr, DecidableEq

/-- The parsing loop of `fetch_tunegenie_songs`: keep items carrying
both `artist` and `song`, use `sid` as the id with the documented
fallback when `sid` is missing or falsy. -/
def parseItems (items : List RawItem) : List SourceEvent :=
  items.filterMap (fun it =>
    match it.artist, it.song with
    | some a, some s =>
        let ts := (it.played_at).getD ""
        let tid := match it.sid with
          | some v => if v == "" then "fallback_" ++ ts ++ "_" ++ a ++ "_" ++ s else v
          | none => "fallback_" ++ ts ++ "_" ++ a ++ "_" ++ s
        some ⟨tid, a, s, ts⟩
    | _, _ => none)

/-- `SpotifyUpdater.fetch_tunegenie_songs`: a raised request is caught
and reported as the empty list. -/
def fetch_tunegenie_songs (outcome : FetchOutcome) : List SourceEvent :=
  match outcome with
  | FetchOutcome.ok items => parseItems items
  | FetchOutcome.raised => []

/-- The run-local dedup key built in `SpotifyUpdater.run`:
`f"{song['artist'].lower()}_{song['title'].lower()}"` (no `strip`). -/
def runKey (s : SourceEvent) : String :=
  s.artist.toLower ++ "_" ++ s.title.toLower

/-- State threaded through the resolution loop of `SpotifyUpdater.run`
(step 3), extended with instrumentation: the ids for which
`search_spotify_track` was invoked and the number of remote search
requests issued. -/
structure RunLoopState where
  db : DB
  unique_tracks : List (String × String)
  track_uris : List String
  tunegenie_ids : List String
  resolveCalls : List String
  remoteCalls : Nat
deriving Repr, DecidableEq

/-- One iteration of the `for song in songs` loop in
`SpotifyUpdater.run`: skip when the key was already recorded, otherwise
resolve and record the key only on a successful resolution. -/
def processSong (hasToken : Bool) (remote : String → String → RemoteSearchResult) (now : Nat)
    (st : RunLoopState) (song : SourceEvent) : RunLoopState :=
  let key := runKey song
  if st.unique_tracks.any (fun kv => kv.1 == key) then st
  else
    let r := search_spotify_track hasToken (remote song.artist song.title) st.db now
      song.tunegenie_id song.artist song.title
    let st1 : RunLoopState :=
      { st with db := r.2.1,
                resolveCalls := st.resolveCalls ++ [song.tunegenie_id],
                remoteCalls := st.remoteCalls + (if r.2.2 then 1 else 0) }
    if truthyOpt r.1 then
      { st1 with unique_tracks := st1.unique_tracks ++ [(key, r.1.getD "")],
                 track_uris := st1.track_uris ++ [r.1.getD ""],
                 tunegenie_ids := st1.tunegenie_ids ++ [song.tunegenie_id] }
    else st1

/-- The full resolution loop of `SpotifyUpdater.run` over the fetched
songs. -/
def runLoop (hasToken : Bool) (remote : String → String → RemoteSearchResult) (now : Nat)
    (st : RunLoopState) (songs : List SourceEvent) : RunLoopState :=
  songs.foldl (processSong hasToken remote now) st

/-- Fresh loop state over a database. -/
def initLoopState (db : DB) : RunLoopState := ⟨db, [], [], [], [], 0⟩

/-- The world a run executes against: token refresh outcome, remote
playlist contents for the conditional cache bootstrap, and the
TuneGenie feed outcome. -/
structure RunWorld where
  tokenOk : Bool
  remoteDaily : Option (List (String × Nat))
  remoteCum : Option (List (String × Nat))
  fetch : FetchOutcome
deriving Repr, DecidableEq

/-- How far `SpotifyUpdater.run` gets, up to the empty-window exit. -/
inductive RunPrefixOutcome where
  | fatalAuth (db : DB)
  | keyError (key : String) (db : DB)
  | exitNoSongs (db : DB)
  | proceeds (songs : List SourceEvent) (db : DB)
deriving Repr, DecidableEq

/-- `SpotifyUpdater.initialize_cache`: only when the cache knows zero
playlists, sync both playlists — reading
`self.spotify_config['daily_playlist_id']` (and then
`['cumulative_playlist_id']`), so a missing key raises `KeyError`. -/
def initialize_cache (cfg : List (String × String)) (w : RunWorld) (db : DB) (now : Nat) :
    Except String DB :=
  if (get_cache_stats db).playlist_count == 0 then
    match dictLookup cfg "daily_playlist_id" with
    | none => Except.error "daily_playlist_id"
    | some dailyId =>
        let db1 := if dailyId != "" then
            sync_playlist_cache true dailyId "Daily" "daily" w.remoteDaily db now
          else db
        match dictLookup cfg "cumulative_playlist_id" with
        | none => Except.error "cumulative_playlist_id"
        | some cumId =>
            Except.ok (if cumId != "" then
                sync_playlist_cache true cumId "Cumulative" "cumulative" w.remoteCum db1 now
              else db1)
  else Except.ok db

/-- The prefix of `SpotifyUpdater.run`: authenticate, conditionally
bootstrap the cache, fetch the window, and exit with status 0 when no
songs were found; a non-empty window is handed over as `proceeds`. -/
def run_until_fetch (c : SpotifyFileConfig) (w : RunWorld) (db : DB) (now : Nat) :
    RunPrefixOutcome :=
  let cfg := get_spotify_config c
  if !w.tokenOk then RunPrefixOutcome.fatalAuth db
  else
    match initialize_cache cfg w db now with
    | Except.error k => RunPrefixOutcome.keyError k db
    | Except.ok db1 =>
        let songs := fetch_tunegenie_songs w.fetch
        if songs.isEmpty then RunPrefixOutcome.exitNoSongs db1
        else RunPrefixOutcome.proceeds songs db1

/-- Process exit code of a run-prefix outcome: `sys.exit(1)` on auth
failure, an uncaught `KeyError` also terminates with a non-zero status,
`sys.exit(0)` on an empty window; `none` when the run continues past
the modelled prefix. -/
def exitCodeOf : RunPrefixOutcome → Option Nat
  | RunPrefixOutcome.fatalAuth _ => some 1
  | RunPrefixOutcome.keyError _ _ => some 1
  | RunPrefixOutcome.exitNoSongs _ => some 0
  | RunPrefixOutcome.proceeds _ _ => none

/-- Final database of a run-prefix outcome. -/
def dbOf : RunPrefixOutcome → DB
  | RunPrefixOutcome.fatalAuth db => db
  | RunPrefixOutcome.keyError _ db => db
  | RunPrefixOutcome.exitNoSongs db => db
  | RunPrefixOutcome.proceeds _ db => db

/-! Auxiliary predicates used to state the claims. -/

/-- Whether a `(playlist_id, tunegenie_id)` membership pair is present. -/
def pairPresent (tbl : List PlaylistTrackRow) (playlist_id tunegenie_id : String) : Bool :=
  tbl.any (fun r => r.playlist_id == playlist_id && r.tunegenie_id == tunegenie_id)

/-- The membership rows of one `(playlist_id, tunegenie_id)` pair. -/
def rowsWithPair (tbl : List PlaylistTrackRow) (playlist_id tunegenie_id : String) :
    List PlaylistTrackRow :=
  tbl.filter (fun r => r.playlist_id == playlist_id && r.tunegenie_id == tunegenie_id)

/-- A playlist's positions are contiguous from 0: the multiset of
positions is `{0, 1, ..., count-1}`. -/
def contiguousFromZero (db : DB) (playlist_id : String) : Prop :=
  (positionsOf db playlist_id).Perm
    (List.map (fun j : Nat => (j : Int)) (List.range (positionsOf db playlist_id).length))

instance (db : DB) (playlist_id : String) : Decidable (contiguousFromZero db playlist_id) := by
  unfold contiguousFromZero
  infer_instance

/-- The rows the `add_tracks_to_playlist_cache` loop would create for
fresh ids starting at enumeration index `i`. -/
def mkNewRows (playlist_id : String) (m : Int) (now : Nat) :
    Nat → List String → List PlaylistTrackRow
  | _, [] => []
  | i, tid :: rest =>
      ⟨playlist_id, tid, m + (i : Int) + 1, now⟩ :: mkNewRows playlist_id m now (i + 1) rest

/-! Concrete states used as inputs of the claims' counterexamples and
witnesses. -/

/-- The empty database. -/
def dbEmpty : DB := ⟨[], [], []⟩

/-- A resolved track row with the given id and URI. -/
def mkResolvedTrack (tunegenie_id uri : String) : TrackRow :=
  ⟨tunegenie_id, "ar", "ti", some uri, none, none, none, "ar_ti", 0, 0⟩

/-- A database whose only `tracks` row is a recorded negative search
result for `"t1"` (`spotify_uri` NULL). -/
def dbNegT1 : DB := ⟨[], [⟨"t1", "A", "S", none, none, none, none, "a_s", 1, 1⟩], []⟩

/-- Three resolved tracks plus a stale membership row of playlist `"P"`. -/
def dbReplaceDemo : DB :=
  ⟨[], [mkResolvedTrack "ta" "u1", mkResolvedTrack "tb" "u2", mkResolvedTrack "tc" "u3"],
   [⟨"P", "old", 0, 3⟩]⟩

/-- Playlist `"P"` holding ids `"ta"`, `"tb"` at contiguous positions 0
and 1. -/
def dbAppendDemo : DB := ⟨[], [], [⟨"P", "ta", 0, 5⟩, ⟨"P", "tb", 1, 6⟩]⟩

/-- A cumulative playlist `"C"` with one cached row (added long ago)
and two resolved tracks. -/
def dbCumulDemo : DB :=
  ⟨[], [mkResolvedTrack "ta" "spotify:track:a", mkResolvedTrack "tb" "spotify:track:b"],
   [⟨"C", "ta", 0, 10⟩]⟩

/-- A playlist `"Q"` with two resolved members, used against a
configured maximum of 1. -/
def dbTrimDemo : DB :=
  ⟨[], [mkResolvedTrack "ta" "spotify:track:a", mkResolvedTrack "tb" "spotify:track:b"],
   [⟨"Q", "ta", 0, 1⟩, ⟨"Q", "tb", 1, 2⟩]⟩

/-- Two source events with the same `(artist, title)` but different
external ids. -/
def evDupA : SourceEvent := ⟨"i1", "A", "T", "ts1"⟩

/-- Second event of the duplicated pair. -/
def evDupB : SourceEvent := ⟨"i2", "A", "T", "ts2"⟩

/-- A database whose cache already knows one playlist (bootstrap is
skipped on such runs). -/
def dbBootstrapped : DB :=
  ⟨[⟨"D", "Daily", "daily", 0⟩], [], [⟨"D", "x", 0, 0⟩]⟩

/-- A run world whose TuneGenie request raises. -/
def worldFetchRaised : RunWorld := ⟨true, none, none, FetchOutcome.raised⟩

/-- A concrete configuration file. -/
def fileConfigDemo : SpotifyFileConfig := ⟨"cid", "cs", "rt", "pl"⟩

/-- A database with one stale unresolved row and one equally old but
resolved row. -/
def dbCleanupDemo : DB :=
  ⟨[], [⟨"old_null", "A", "S", none, none, none, none, "a_s", 0, 0⟩,
        ⟨"old_ok", "B", "R", some "u9", none, none, none, "b_r", 0, 0⟩], []⟩

/-! A parametric family of cumulative-playlist states: playlist `"C"`
with `n` members at positions `0..n-1`, strictly increasing `added_at`,
each resolving to a distinct URI.  It quantifies the trim claim over
every cached count and configured maximum. -/

/-- A length-coded name, injective in `i`. -/
def natTag (i : Nat) : String := String.mk (List.replicate i 'a')

/-- External id of the `i`-th member. -/
def cumTid (i : Nat) : String := natTag i

/-- Catalog URI of the `i`-th member. -/
def cumUri (i : Nat) : String := "spotify:track:" ++ natTag i

/-- Resolved track row of the `i`-th member. -/
def cumTrack (i : Nat) : TrackRow :=
  ⟨cumTid i, "ar", "ti", some (cumUri i), none, none, none, "ar_ti", 0, 0⟩

/-- Membership row of the `i`-th member. -/
def cumRow (i : Nat) : PlaylistTrackRow := ⟨"C", cumTid i, (i : Int), i⟩

/-- The cumulative-playlist state with `n` members. -/
def mkCumDB (n : Nat) : DB :=
  ⟨[⟨"C", "Cumulative", "cumulative", 0⟩], (List.range n).map cumTrack,
   (List.range n).map cumRow⟩

/-! Claim theorems. -/

/-- Claim C1: resolution should be idempotent including negative
results — after a first search that recorded "not found" for an
external id, a second `search_spotify_track` call should perform no
remote search.  The code violates this: the first call does record the
negative outcome (a `tracks` row with NULL `spotify_uri`), yet the
second call issues a remote search request again, because
`get_cached_track_search` filters on `spotify_uri IS NOT NULL`. -/
theorem c1_negative_result_triggers_second_remote_search :
    (search_spotify_track true RemoteSearchResult.notFound dbEmpty 5 "t1" "A" "S").2.2 = true ∧
    ((search_spotify_track true RemoteSearchResult.notFound dbEmpty 5 "t1" "A" "S").2.1).tracks.any
      (fun t => t.tunegenie_id == "t1" && t.spotify_uri.isNone) = true ∧
    (search_spotify_track true RemoteSearchResult.notFound
      (search_spotify_track true RemoteSearchResult.notFound dbEmpty 5 "t1" "A" "S").2.1
      6 "t1" "A" "S").2.2 = true := by
  decide

/-- Claim C2: the cache lookup should distinguish a cached negative
result (a `TrackMapping` row with NULL `catalog_uri`) from a
never-attempted id.  The code violates this:
`get_cached_track_search` returns `None` in both cases, because its
query filters on `spotify_uri IS NOT NULL`. -/
theorem c2_negative_cache_indistinguishable_from_missing :
    dbNegT1.tracks.any (fun t => t.tunegenie_id == "t1" && t.spotify_uri.isNone) = true ∧
    dbEmpty.tracks.all (fun t => t.tunegenie_id != "t1") = true ∧
    (get_cached_track_search dbNegT1 9 "t1").1 = (get_cached_track_search dbEmpty 9 "t1").1 := by
  decide

/-- Claim C3: after a successful cumulative append the cache should be
updated by incremental append only, keeping prior rows' positions and
`added_at`.  The code violates this: on success
`add_new_tracks_to_cumulative_playlist` calls `update_playlist_tracks`,
which deletes every membership row of the cumulative playlist and
reinserts the union set with fresh positions and the current timestamp:
here the pre-existing row `("C","ta")` with `added_at = 10` is rewritten
with `added_at = 99`. -/
theorem c3_cumulative_cache_update_is_full_rewrite :
    dbCumulDemo.playlist_tracks = [⟨"C", "ta", 0, 10⟩] ∧
    (add_new_tracks_to_cumulative_playlist (some "C") 1000 (fun _ => true) true none
      dbCumulDemo 99 ["spotify:track:b"]).1 = true ∧
    (add_new_tracks_to_cumulative_playlist (some "C") 1000 (fun _ => true) true none
      dbCumulDemo 99 ["spotify:track:b"]).2.playlist_tracks
      = [⟨"C", "ta", 0, 99⟩, ⟨"C", "tb", 1, 99⟩] := by
  decide

/-- Claim C4 counterexample: the claim says `playlist_membership(P)`
returns the ordered sequence `[a,b,c]` in that order after
`replace_membership(P,[a,b,c])`.  But `get_playlist_tracks` returns a
set: replacing with `["u1","u2","u3"]` and replacing with
`["u3","u2","u1"]` give the same read value, so the read cannot be the
ordered sequence for both. -/
theorem c4_membership_read_is_unordered :
    get_playlist_tracks (update_playlist_tracks dbReplaceDemo 7 "P" ["u1", "u2", "u3"]) "P"
      = get_playlist_tracks (update_playlist_tracks dbReplaceDemo 7 "P" ["u3", "u2", "u1"]) "P"
    ∧ ["u1", "u2", "u3"] ≠ ["u3", "u2", "u1"] := by
  decide

/-- Claim C5 counterexample: with existing membership `[("P","ta"),
("P","tb")]` at positions 0,1, appending `["tb","tc"]` inserts `"tc"`
at position 3 (not 2): the loop advances the position counter for the
ignored duplicate `"tb"`, so positions are no longer contiguous from
0. -/
theorem c5_append_leaves_position_gap :
    positionsOf (add_tracks_to_playlist_cache dbAppendDemo 9 "P" ["tb", "tc"]) "P" = [0, 1, 3] ∧
    (rowsWithPair (add_tracks_to_playlist_cache dbAppendDemo 9 "P" ["tb", "tc"]).playlist_tracks
      "P" "tc").map (fun r => r.position) = [3] ∧
    ¬ contiguousFromZero (add_tracks_to_playlist_cache dbAppendDemo 9 "P" ["tb", "tc"]) "P" := by
  decide

/-- Claim C6 counterexample: the claim says that whenever the count
exceeds the maximum, trim selects exactly `count - max + 50` oldest
entries.  With count 2 and maximum 1 the eviction count is 51, but only
2 rows exist: the `LIMIT` returns 2 entries and trim removes both,
leaving 0 — not `max - 50`. -/
theorem c6_trim_selects_fewer_when_max_small :
    get_playlist_track_count dbTrimDemo "Q" = 2 ∧
    (2 : Nat) - 1 + 50 = 51 ∧
    (get_oldest_tracks_from_playlist dbTrimDemo "Q" 51).length = 2 ∧
    get_playlist_track_count
      ((trim_cumulative_playlist_if_needed (some "Q") 1 true dbTrimDemo).2) "Q" = 0 := by
  decide

/-- Claim C7 counterexample: two events with identical `(artist,
title)` and different external ids, where the first search finds
nothing.  The dedup key is recorded only on a successful resolution, so
the second event is resolved as well — `search_spotify_track` is
invoked for both ids and two remote searches are issued — contradicting
"the second is silently dropped and no resolution is attempted for
it". -/
theorem c7_duplicate_reattempted_after_failed_resolution :
    runKey evDupA = runKey evDupB ∧
    evDupA.tunegenie_id ≠ evDupB.tunegenie_id ∧
    (runLoop true (fun _ _ => RemoteSearchResult.notFound) 3 (initLoopState dbEmpty)
      [evDupA, evDupB]).resolveCalls = ["i1", "i2"] ∧
    (runLoop true (fun _ _ => RemoteSearchResult.notFound) 3 (initLoopState dbEmpty)
      [evDupA, evDupB]).remoteCalls = 2 := by
  exact ⟨rfl, by decide, by decide, by decide⟩

/-- An `INSERT OR IGNORE` with no key conflict appends the row. -/
theorem ptInsertOrIgnore_fresh (tbl : List PlaylistTrackRow) (row : PlaylistTrackRow)
    (h : tbl.any (fun x =>
      x.playlist_id == row.playlist_id && x.tunegenie_id == row.tunegenie_id) = false) :
    ptInsertOrIgnore tbl row = tbl ++ [row] := by
  simp [ptInsertOrIgnore, h]

/-- A singleton filter result is a member satisfying the predicate. -/
theorem filter_uri_singleton_mem (l : List TrackRow) (x : TrackRow) (u : String)
    (h : l.filter (fun t => t.spotify_uri == some u) = [x]) :
    x ∈ l ∧ x.spotify_uri = some u := by
  have hx : x ∈ l.filter (fun t => t.spotify_uri == some u) := by
    rw [h]; exact List.mem_singleton_self x
  have h2 := List.mem_filter.mp hx
  exact ⟨h2.1, by simpa using h2.2⟩

/-- With `tunegenie_id` a primary key, the join condition of the
playlist queries selects exactly the (resolved) row of that id. -/
theorem filter_tid_isSome_singleton :
    ∀ (l : List TrackRow) (x : TrackRow),
      (l.map (fun t => t.tunegenie_id)).Nodup → x ∈ l → x.spotify_uri.isSome = true →
      l.filter (fun t => t.tunegenie_id == x.tunegenie_id && t.spotify_uri.isSome) = [x] := by
  intro l
  induction l with
  | nil => intro x _ hx _; cases hx
  | cons y t ih =>
      intro x hnd hx hs
      rw [List.map_cons, List.nodup_cons] at hnd
      rcases List.mem_cons.mp hx with rfl | hxt
      · have htail : t.filter
            (fun z => z.tunegenie_id == x.tunegenie_id && z.spotify_uri.isSome) = [] := by
          rw [List.filter_eq_nil_iff]
          intro z hz
          have hne : z.tunegenie_id ≠ x.tunegenie_id := fun he =>
            hnd.1 (he ▸ List.mem_map_of_mem (fun t => t.tunegenie_id) hz)
          simp [hne]
        rw [List.filter_cons]
        simp [hs, htail]
      · have hyne : (y.tunegenie_id == x.tunegenie_id) = false := by
          have hne : y.tunegenie_id ≠ x.tunegenie_id := fun he =>
            hnd.1 (he ▸ List.mem_map_of_mem (fun t => t.tunegenie_id) hxt)
          simpa using hne
        rw [List.filter_cons]
        simp only [hyne, Bool.false_and, if_false]
        exact ih x hnd.2 hxt hs

/-- After the `DELETE` of a playlist's rows, no insert into that
playlist can conflict with a remaining row. -/
theorem cleared_any_pid_false (l : List PlaylistTrackRow) (pid : String)
    (q : PlaylistTrackRow → Bool) :
    (l.filter (fun r => r.playlist_id != pid)).any
      (fun x => x.playlist_id == pid && q x) = false := by
  rw [List.any_eq_false]
  intro x hx
  have h2 := List.mem_filter.mp hx
  have : (x.playlist_id == pid) = false := by
    simpa using h2.2
  simp [this]

/-- The cleared table contributes nothing to the playlist's rows. -/
theorem cleared_filter_pid_nil (l : List PlaylistTrackRow) (pid : String) :
    (l.filter (fun r => r.playlist_id != pid)).filter (fun r => r.playlist_id == pid) = [] := by
  rw [List.filter_filter, List.filter_eq_nil_iff]
  intro x _
  have hb : (x.playlist_id != pid) = !(x.playlist_id == pid) := rfl
  rw [hb, Bool.and_not_self]
  simp

/-- Claim C4 (amended): replace is total, ordered internally, but read
back as a set.  After `update_playlist_tracks db now P [a,b,c]` with
`a`, `b`, `c` distinct URIs each resolved by exactly one `tracks` row
(under the `tunegenie_id` primary key), the underlying SQL query of
`get_playlist_tracks` — ordered by `position` — returns exactly
`[a, b, c]` in that order, regardless of P's prior contents; but the
Python method wraps it in a set, so `get_playlist_tracks` returns
exactly the unordered set `{a, b, c}`. -/
theorem c4_replace_total_ordered_query_set_read (db : DB) (now : Nat) (P a b c : String)
    (tA tB tC : TrackRow)
    (hPK : (db.tracks.map (fun t => t.tunegenie_id)).Nodup)
    (hA : db.tracks.filter (fun t => t.spotify_uri == some a) = [tA])
    (hB : db.tracks.filter (fun t => t.spotify_uri == some b) = [tB])
    (hC : db.tracks.filter (fun t => t.spotify_uri == some c) = [tC])
    (hab : a ≠ b) (hac : a ≠ c) (hbc : b ≠ c) :
    playlist_tracks_query (update_playlist_tracks db now P [a, b, c]) P = [a, b, c] ∧
    get_playlist_tracks (update_playlist_tracks db now P [a, b, c]) P
      = ([a, b, c] : List String).toFinset := by
  obtain ⟨hAmem, hAuri⟩ := filter_uri_singleton_mem db.tracks tA a hA
  obtain ⟨hBmem, hBuri⟩ := filter_uri_singleton_mem db.tracks tB b hB
  obtain ⟨hCmem, hCuri⟩ := filter_uri_singleton_mem db.tracks tC c hC
  have hABtid : (tA.tunegenie_id == tB.tunegenie_id) = false := by
    have hrow : tA ≠ tB := by
      intro he
      apply hab
      refine Option.some_injective _ ?_
      rw [← hAuri, he]
      exact hBuri
    have : tA.tunegenie_id ≠ tB.tunegenie_id := fun he =>
      hrow (List.inj_on_of_nodup_map hPK hAmem hBmem he)
    simpa using this
  have hACtid : (tA.tunegenie_id == tC.tunegenie_id) = false := by
    have hrow : tA ≠ tC := by
      intro he
      apply hac
      refine Option.some_injective _ ?_
      rw [← hAuri, he]
      exact hCuri
    have : tA.tunegenie_id ≠ tC.tunegenie_id := fun he =>
      hrow (List.inj_on_of_nodup_map hPK hAmem hCmem he)
    simpa using this
  have hBCtid : (tB.tunegenie_id == tC.tunegenie_id) = false := by
    have hrow : tB ≠ tC := by
      intro he
      apply hbc
      refine Option.some_injective _ ?_
      rw [← hBuri, he]
      exact hCuri
    have : tB.tunegenie_id ≠ tC.tunegenie_id := fun he =>
      hrow (List.inj_on_of_nodup_map hPK hBmem hCmem he)
    simpa using this
  have hAs : tA.spotify_uri.isSome = true := by rw [hAuri]; rfl
  have hBs : tB.spotify_uri.isSome = true := by rw [hBuri]; rfl
  have hCs : tC.spotify_uri.isSome = true := by rw [hCuri]; rfl
  have htable : (update_playlist_tracks db now P [a, b, c]).playlist_tracks
      = db.playlist_tracks.filter (fun r => r.playlist_id != P) ++
        [⟨P, tA.tunegenie_id, Int.ofNat 0, now⟩, ⟨P, tB.tunegenie_id, Int.ofNat 1, now⟩,
         ⟨P, tC.tunegenie_id, Int.ofNat 2, now⟩] := by
    show (([(0, a), (1, b), (2, c)] : List (Nat × String)).flatMap
        (fun pu => insertSelectRows db.tracks P (Int.ofNat pu.1) now pu.2)).foldl
        ptInsertOrIgnore (db.playlist_tracks.filter (fun r => r.playlist_id != P)) = _
    have hIA : insertSelectRows db.tracks P (Int.ofNat 0) now a
        = [⟨P, tA.tunegenie_id, Int.ofNat 0, now⟩] := by
      unfold insertSelectRows; rw [hA]; rfl
    have hIB : insertSelectRows db.tracks P (Int.ofNat 1) now b
        = [⟨P, tB.tunegenie_id, Int.ofNat 1, now⟩] := by
      unfold insertSelectRows; rw [hB]; rfl
    have hIC : insertSelectRows db.tracks P (Int.ofNat 2) now c
        = [⟨P, tC.tunegenie_id, Int.ofNat 2, now⟩] := by
      unfold insertSelectRows; rw [hC]; rfl
    rw [List.flatMap_cons, List.flatMap_cons, List.flatMap_cons, List.flatMap_nil]
    rw [hIA, hIB, hIC]
    simp only [List.append_nil, List.singleton_append, List.cons_append, List.nil_append]
    simp only [List.foldl_cons, List.foldl_nil]
    have s1 : ptInsertOrIgnore (db.playlist_tracks.filter (fun r => r.playlist_id != P))
        (⟨P, tA.tunegenie_id, Int.ofNat 0, now⟩ : PlaylistTrackRow)
        = db.playlist_tracks.filter (fun r => r.playlist_id != P)
            ++ [⟨P, tA.tunegenie_id, Int.ofNat 0, now⟩] :=
      ptInsertOrIgnore_fresh _ _ (cleared_any_pid_false db.playlist_tracks P _)
    rw [s1]
    have s2 : ptInsertOrIgnore (db.playlist_tracks.filter (fun r => r.playlist_id != P)
          ++ [⟨P, tA.tunegenie_id, Int.ofNat 0, now⟩])
        (⟨P, tB.tunegenie_id, Int.ofNat 1, now⟩ : PlaylistTrackRow)
        = db.playlist_tracks.filter (fun r => r.playlist_id != P)
            ++ [⟨P, tA.tunegenie_id, Int.ofNat 0, now⟩]
            ++ [⟨P, tB.tunegenie_id, Int.ofNat 1, now⟩] := by
      apply ptInsertOrIgnore_fresh
      show ((db.playlist_tracks.filter (fun r => r.playlist_id != P)
          ++ ([⟨P, tA.tunegenie_id, Int.ofNat 0, now⟩] : List PlaylistTrackRow)).any
        (fun x : PlaylistTrackRow =>
          x.playlist_id == P && x.tunegenie_id == tB.tunegenie_id)) = false
      rw [List.any_append, cleared_any_pid_false db.playlist_tracks P _, Bool.false_or]
      simp [hABtid]
    rw [s2]
    have s3 : ptInsertOrIgnore (db.playlist_tracks.filter (fun r => r.playlist_id != P)
          ++ [⟨P, tA.tunegenie_id, Int.ofNat 0, now⟩]
          ++ [⟨P, tB.tunegenie_id, Int.ofNat 1, now⟩])
        (⟨P, tC.tunegenie_id, Int.ofNat 2, now⟩ : PlaylistTrackRow)
        = db.playlist_tracks.filter (fun r => r.playlist_id != P)
            ++ [⟨P, tA.tunegenie_id, Int.ofNat 0, now⟩]
            ++ [⟨P, tB.tunegenie_id, Int.ofNat 1, now⟩]
            ++ [⟨P, tC.tunegenie_id, Int.ofNat 2, now⟩] := by
      apply ptInsertOrIgnore_fresh
      show ((db.playlist_tracks.filter (fun r => r.playlist_id != P)
          ++ ([⟨P, tA.tunegenie_id, Int.ofNat 0, now⟩] : List PlaylistTrackRow)
          ++ ([⟨P, tB.tunegenie_id, Int.ofNat 1, now⟩] : List PlaylistTrackRow)).any
        (fun x : PlaylistTrackRow =>
          x.playlist_id == P && x.tunegenie_id == tC.tunegenie_id)) = false
      rw [List.any_append, List.any_append,
        cleared_any_pid_false db.playlist_tracks P _]
      simp [hACtid, hBCtid]
    rw [s3]
    simp [List.append_assoc]
  have hquery : playlist_tracks_query (update_playlist_tracks db now P [a, b, c]) P
      = [a, b, c] := by
    unfold playlist_tracks_query
    rw [htable, List.filter_append, cleared_filter_pid_nil, List.nil_append]
    have hfrows : ([⟨P, tA.tunegenie_id, Int.ofNat 0, now⟩, ⟨P, tB.tunegenie_id, Int.ofNat 1, now⟩,
        ⟨P, tC.tunegenie_id, Int.ofNat 2, now⟩] : List PlaylistTrackRow).filter
        (fun r => r.playlist_id == P)
        = [⟨P, tA.tunegenie_id, Int.ofNat 0, now⟩, ⟨P, tB.tunegenie_id, Int.ofNat 1, now⟩,
           ⟨P, tC.tunegenie_id, Int.ofNat 2, now⟩] := by
      simp
    rw [hfrows]
    have hsorted : ptSortedByPosition
        [⟨P, tA.tunegenie_id, Int.ofNat 0, now⟩, ⟨P, tB.tunegenie_id, Int.ofNat 1, now⟩,
         ⟨P, tC.tunegenie_id, Int.ofNat 2, now⟩]
        = [⟨P, tA.tunegenie_id, Int.ofNat 0, now⟩, ⟨P, tB.tunegenie_id, Int.ofNat 1, now⟩,
           ⟨P, tC.tunegenie_id, Int.ofNat 2, now⟩] := by
      apply List.Sorted.insertionSort_eq
      simp [List.sorted_cons]
    rw [hsorted]
    simp only [List.flatMap_cons, List.flatMap_nil]
    have htr : (update_playlist_tracks db now P [a, b, c]).tracks = db.tracks := rfl
    rw [htr]
    rw [filter_tid_isSome_singleton db.tracks tA hPK hAmem hAs,
        filter_tid_isSome_singleton db.tracks tB hPK hBmem hBs,
        filter_tid_isSome_singleton db.tracks tC hPK hCmem hCs]
    simp [hAuri, hBuri, hCuri]
  exact ⟨hquery, by unfold get_playlist_tracks; rw [hquery]⟩

/-- Witness for the amended C4 on a concrete database with three
resolved tracks and a stale prior member of playlist `"P"`. -/
theorem c4_replace_total_ordered_query_set_read_witness :
    playlist_tracks_query (update_playlist_tracks dbReplaceDemo 7 "P" ["u1", "u2", "u3"]) "P"
      = ["u1", "u2", "u3"] ∧
    get_playlist_tracks (update_playlist_tracks dbReplaceDemo 7 "P" ["u1", "u2", "u3"]) "P"
      = (["u1", "u2", "u3"] : List String).toFinset := by
  exact c4_replace_total_ordered_query_set_read dbReplaceDemo 7 "P" "u1" "u2" "u3"
    (mkResolvedTrack "ta" "u1") (mkResolvedTrack "tb" "u2") (mkResolvedTrack "tc" "u3")
    (by decide) (by decide) (by decide) (by decide) (by decide) (by decide) (by decide)

/-- Mapping two pointwise-equal functions gives equal lists. -/
theorem map_ext_fun {α β : Type} (g h : α → β) (hg : ∀ x, g x = h x) (l : List α) :
    l.map g = l.map h := by
  rw [funext hg]

/-- The append loop over pairwise-distinct ids that are all absent from
the table inserts exactly the rows `mkNewRows` describes, after the
existing rows. -/
theorem add_tracks_loop_fresh (pid : String) (m : Int) (now : Nat) :
    ∀ (ids : List String) (tbl : List PlaylistTrackRow) (i : Nat),
      ids.Nodup → (∀ x ∈ ids, pairPresent tbl pid x = false) →
      add_tracks_loop pid m now tbl i ids = tbl ++ mkNewRows pid m now i ids := by
  intro ids
  induction ids with
  | nil => intro tbl i _ _; simp [add_tracks_loop, mkNewRows]
  | cons t rest ih =>
      intro tbl i hnd hf
      have hft : pairPresent tbl pid t = false := hf t (by simp)
      have hrow : ptInsertOrIgnore tbl ⟨pid, t, m + (i : Int) + 1, now⟩
          = tbl ++ [⟨pid, t, m + (i : Int) + 1, now⟩] :=
        ptInsertOrIgnore_fresh tbl _ hft
      have hrest : ∀ x ∈ rest,
          pairPresent (tbl ++ [⟨pid, t, m + (i : Int) + 1, now⟩]) pid x = false := by
        intro x hx
        have h1 := hf x (by simp [hx])
        have hne : (t == x) = false := by
          have hne' : t ≠ x := fun he => (List.nodup_cons.mp hnd).1 (he ▸ hx)
          simpa using hne'
        unfold pairPresent at h1 ⊢
        rw [List.any_append, h1, Bool.false_or]
        simp [hne]
      show add_tracks_loop pid m now (ptInsertOrIgnore tbl ⟨pid, t, m + (i : Int) + 1, now⟩)
          (i + 1) rest = _
      rw [hrow]
      rw [ih _ (i + 1) (List.nodup_cons.mp hnd).2 hrest]
      simp [mkNewRows, List.append_assoc]

/-- All rows built by `mkNewRows` belong to the playlist. -/
theorem mkNewRows_filter_pid (pid : String) (m : Int) (now : Nat) :
    ∀ (ids : List String) (i : Nat),
      (mkNewRows pid m now i ids).filter (fun r => r.playlist_id == pid)
        = mkNewRows pid m now i ids := by
  intro ids
  induction ids with
  | nil => intro i; simp [mkNewRows]
  | cons t rest ih => intro i; simp [mkNewRows, ih (i + 1)]

/-- `mkNewRows` contributes no row for an id that is not in the input
list. -/
theorem mkNewRows_rowsWithPair_of_not_mem (pid tid : String) (m : Int) (now : Nat) :
    ∀ (ids : List String) (i : Nat), tid ∉ ids →
      rowsWithPair (mkNewRows pid m now i ids) pid tid = [] := by
  intro ids
  induction ids with
  | nil => intro i _; simp [mkNewRows, rowsWithPair]
  | cons t rest ih =>
      intro i hmem
      have hne : (t == tid) = false := by
        have hne' : t ≠ tid := fun he => hmem (by simp [he])
        simpa using hne'
      have hrest : tid ∉ rest := fun h => hmem (List.mem_cons_of_mem _ h)
      simpa [mkNewRows, rowsWithPair, List.filter_cons, hne] using ih (i + 1) hrest

/-- The positions assigned by `mkNewRows` starting at index `i` are
`m + i + 1, m + i + 2, ...`. -/
theorem mkNewRows_map_position (pid : String) (m : Int) (now : Nat) :
    ∀ (ids : List String) (i : Nat),
      (mkNewRows pid m now i ids).map (fun r => r.position)
        = List.map (fun j : Nat => m + (j : Int)) (List.range' (i + 1) ids.length) := by
  intro ids
  induction ids with
  | nil => intro i; simp [mkNewRows]
  | cons t rest ih =>
      intro i
      have hr : List.range' (i + 1) (rest.length + 1) = (i + 1) :: List.range' (i + 2) rest.length :=
        rfl
      simp only [mkNewRows, List.map_cons, List.length_cons, hr]
      congr 1
      · push_cast; ring
      · exact ih (i + 1)

/-- Folding `max` over the casts of `range' s (len+1)`. -/
theorem foldl_max_coe_range' : ∀ (len s : Nat) (a : Int),
    List.foldl max a (List.map (fun j : Nat => (j : Int)) (List.range' s (len + 1)))
      = max a ((s : Int) + (len : Int)) := by
  intro len
  induction len with
  | zero => intro s a; simp [List.range']
  | succ k ih =>
      intro s a
      have hr : List.range' s (k + 1 + 1) = s :: List.range' (s + 1) (k + 1) := rfl
      rw [hr]
      simp only [List.map_cons, List.foldl_cons]
      rw [ih (s + 1) (max a s)]
      rw [max_assoc]
      have h1 : max (s : Int) ((s + 1 : Nat) + (k : Int)) = ((s + 1 : Nat) : Int) + (k : Int) :=
        max_eq_right (by push_cast; omega)
      rw [h1]
      congr 1
      push_cast
      ring

/-- When a playlist's positions are exactly `0..n-1`,
`COALESCE(MAX(position), -1)` is `n - 1`. -/
theorem maxPosition_of_contiguous (db : DB) (pid : String) (n : Nat)
    (hpos : positionsOf db pid = List.map (fun j : Nat => (j : Int)) (List.range n)) :
    maxPosition db pid = (n : Int) - 1 := by
  unfold maxPosition
  cases n with
  | zero => rw [hpos]; simp
  | succ m =>
      have hcons : List.map (fun j : Nat => (j : Int)) (List.range (m + 1))
          = (0 : Int) :: List.map (fun j : Nat => (j : Int)) (List.range' 1 m) := by
        rw [List.range_eq_range']
        rfl
      rw [hpos, hcons]
      show (List.map (fun j : Nat => (j : Int)) (List.range' 1 m)).foldl max 0
        = ((m + 1 : Nat) : Int) - 1
      cases m with
      | zero => simp
      | succ k =>
          rw [foldl_max_coe_range' k 1 0]
          rw [max_eq_right (by push_cast; omega)]
          push_cast
          ring

/-- Claim C5 (amended): `add_tracks_to_playlist_cache` never touches
existing rows (an already-present `(playlist_id, external_id)` pair is
a no-op for that pair, first write wins), and when the appended ids are
pairwise distinct and all fresh, the id at input index `i` is inserted
at position `k + 1 + i` where `k` is the prior maximum position — so
starting from contiguous positions `0..n-1` the playlist ends at
contiguous positions `0..n+len-1`.  When an appended entry is skipped
(a duplicate), the loop still advances the counter and a permanent gap
remains (see the counterexample). -/
theorem c5_append_dedup_and_contiguity (db : DB) (now : Nat) (pid tid : String)
    (ids : List String) (n : Nat)
    (hpres : pairPresent db.playlist_tracks pid tid = true)
    (hnodup : ids.Nodup)
    (hfresh : ∀ x ∈ ids, pairPresent db.playlist_tracks pid x = false)
    (hpos : positionsOf db pid = List.map (fun j : Nat => (j : Int)) (List.range n)) :
    rowsWithPair (add_tracks_to_playlist_cache db now pid ids).playlist_tracks pid tid
      = rowsWithPair db.playlist_tracks pid tid ∧
    (add_tracks_to_playlist_cache db now pid ids).playlist_tracks
      = db.playlist_tracks ++ mkNewRows pid ((n : Int) - 1) now 0 ids ∧
    positionsOf (add_tracks_to_playlist_cache db now pid ids) pid
      = List.map (fun j : Nat => (j : Int)) (List.range (n + ids.length)) := by
  have hmax : maxPosition db pid = (n : Int) - 1 := maxPosition_of_contiguous db pid n hpos
  have hchar : (add_tracks_to_playlist_cache db now pid ids).playlist_tracks
      = db.playlist_tracks ++ mkNewRows pid ((n : Int) - 1) now 0 ids := by
    show add_tracks_loop pid (maxPosition db pid) now db.playlist_tracks 0 ids = _
    rw [hmax, add_tracks_loop_fresh pid _ now ids db.playlist_tracks 0 hnodup hfresh]
  refine ⟨?_, hchar, ?_⟩
  · have htid : tid ∉ ids := by
      intro hmem
      rw [hfresh tid hmem] at hpres
      exact Bool.noConfusion hpres
    rw [show rowsWithPair (add_tracks_to_playlist_cache db now pid ids).playlist_tracks pid tid
        = rowsWithPair (db.playlist_tracks ++ mkNewRows pid ((n : Int) - 1) now 0 ids) pid tid
      from congrArg (fun l => rowsWithPair l pid tid) hchar]
    unfold rowsWithPair
    rw [List.filter_append]
    rw [show (mkNewRows pid ((n : Int) - 1) now 0 ids).filter
        (fun r => r.playlist_id == pid && r.tunegenie_id == tid) = []
      from mkNewRows_rowsWithPair_of_not_mem pid tid _ now ids 0 htid]
    simp
  · unfold positionsOf
    rw [hchar, List.filter_append, List.map_append, mkNewRows_filter_pid]
    have h1 : (db.playlist_tracks.filter (fun r => r.playlist_id == pid)).map
        (fun r => r.position) = List.map (fun j : Nat => (j : Int)) (List.range n) := hpos
    rw [h1, mkNewRows_map_position]
    rw [List.range_add, List.map_append, List.range'_eq_map_range, List.map_map, List.map_map]
    congr 1
    exact map_ext_fun _ _
      (fun x => by simp only [Function.comp_apply]; push_cast; ring) _

/-- Witness for the amended C5: appending two fresh distinct ids to a
playlist at positions `0,1` leaves the present pair `("P","ta")`
untouched and yields contiguous positions `0..3`. -/
theorem c5_append_dedup_and_contiguity_witness :
    rowsWithPair (add_tracks_to_playlist_cache dbAppendDemo 9 "P" ["tc", "td"]).playlist_tracks
      "P" "ta" = rowsWithPair dbAppendDemo.playlist_tracks "P" "ta" ∧
    positionsOf (add_tracks_to_playlist_cache dbAppendDemo 9 "P" ["tc", "td"]) "P"
      = [0, 1, 2, 3] := by
  have h := c5_append_dedup_and_contiguity dbAppendDemo 9 "P" "ta" ["tc", "td"] 2
    (by decide) (by decide) (by decide) (by decide)
  exact ⟨h.1, h.2.2.trans (by decide)⟩

/-- `natTag` is injective: the tag's length is its index. -/
theorem natTag_injective : Function.Injective natTag := by
  intro i j h
  have hd : List.replicate i 'a' = List.replicate j 'a' := congrArg String.data h
  have hl := congrArg List.length hd
  simpa using hl

/-- `cumUri` is injective. -/
theorem cumUri_injective : Function.Injective cumUri := by
  intro i j h
  unfold cumUri at h
  have hd := congrArg String.data h
  rw [String.data_append, String.data_append] at hd
  exact natTag_injective (String.ext (List.append_cancel_left hd))

/-- `all` over a mapped list. -/
theorem all_map_general {α β : Type} (f : α → β) (p : β → Bool) :
    ∀ l : List α, (l.map f).all p = l.all (fun x => p (f x)) := by
  intro l
  induction l with
  | nil => rfl
  | cons x t ih => simp [ih]

/-- A `flatMap` whose function yields singletons is a `map`. -/
theorem flatMap_eq_map_of_singleton {α β : Type} (g : α → List β) (h : α → β) :
    ∀ l : List α, (∀ x ∈ l, g x = [h x]) → l.flatMap g = l.map h := by
  intro l
  induction l with
  | nil => intro _; rfl
  | cons x t ih =>
      intro hx
      rw [List.flatMap_cons, hx x (by simp), List.map_cons,
        ih (fun y hy => hx y (by simp [hy]))]
      rfl

/-- A fold of the per-URI deletions of
`remove_tracks_from_playlist_cache` equals one filter by the
conjunction of all the per-URI conditions. -/
theorem remove_fold_eq_filter (db : DB) (pid : String) :
    ∀ (us : List String) (l : List PlaylistTrackRow),
      us.foldl (fun tbl u => tbl.filter (fun r =>
          !(r.playlist_id == pid &&
            db.tracks.any (fun t =>
              t.tunegenie_id == r.tunegenie_id && t.spotify_uri == some u)))) l
        = l.filter (fun r => us.all (fun u =>
            !(r.playlist_id == pid &&
              db.tracks.any (fun t =>
                t.tunegenie_id == r.tunegenie_id && t.spotify_uri == some u)))) := by
  intro us
  induction us with
  | nil => intro l; simp
  | cons u rest ih =>
      intro l
      rw [List.foldl_cons, ih, List.filter_filter]
      exact List.filter_congr (fun a _ => by rw [List.all_cons]; exact Bool.and_comm _ _)

/-- The `n`-member cumulative state has cached count `n`. -/
theorem mkCumDB_count (n : Nat) : get_playlist_track_count (mkCumDB n) "C" = n := by
  unfold get_playlist_track_count
  rw [show (mkCumDB n).playlist_tracks = (List.range n).map cumRow from rfl]
  have hall : ∀ a ∈ (List.range n).map cumRow, (a.playlist_id == "C") = true := by
    intro a ha
    obtain ⟨i, _, rfl⟩ := List.mem_map.mp ha
    rfl
  rw [List.filter_eq_self.mpr hall]
  simp

/-- The family's `tracks` table has pairwise-distinct ids. -/
theorem mkCumDB_tracks_nodup (n : Nat) :
    (((mkCumDB n).tracks).map (fun t => t.tunegenie_id)).Nodup := by
  rw [show (mkCumDB n).tracks = (List.range n).map cumTrack from rfl]
  rw [List.map_map]
  exact List.Nodup.map (fun a b h => natTag_injective h) (List.nodup_range n)

/-- The eviction join of the family pairs each membership row with its
URI, in table order. -/
theorem mkCumDB_oldestJoin (n : Nat) :
    oldestJoin (mkCumDB n) "C" = (List.range n).map (fun i => (cumRow i, cumUri i)) := by
  unfold oldestJoin
  have hfilter : ((mkCumDB n).playlist_tracks).filter (fun r => r.playlist_id == "C")
      = (List.range n).map cumRow := by
    rw [show (mkCumDB n).playlist_tracks = (List.range n).map cumRow from rfl]
    apply List.filter_eq_self.mpr
    intro a ha
    obtain ⟨i, _, rfl⟩ := List.mem_map.mp ha
    rfl
  rw [hfilter]
  have hsing : ∀ r ∈ (List.range n).map cumRow,
      (((mkCumDB n).tracks).filter
          (fun t => t.tunegenie_id == r.tunegenie_id && t.spotify_uri.isSome)).filterMap
        (fun t => t.spotify_uri.map (fun u => (r, u)))
        = [(r, cumUri r.added_at)] := by
    intro r hr
    obtain ⟨i, hi, rfl⟩ := List.mem_map.mp hr
    have h2 : ((mkCumDB n).tracks).filter
        (fun t => t.tunegenie_id == (cumRow i).tunegenie_id && t.spotify_uri.isSome)
        = [cumTrack i] :=
      filter_tid_isSome_singleton _ (cumTrack i) (mkCumDB_tracks_nodup n)
        (List.mem_map_of_mem cumTrack hi) rfl
    rw [h2]
    rfl
  rw [flatMap_eq_map_of_singleton _ (fun r => (r, cumUri r.added_at)) _ hsing]
  rw [List.map_map]
  rfl

/-- The join is already in `(added_at, position)` order. -/
theorem mkCumDB_join_sorted (n : Nat) :
    List.Sorted oldestLE ((List.range n).map (fun i => (cumRow i, cumUri i))) :=
  List.pairwise_map.mpr ((List.pairwise_lt_range n).imp (fun h => Or.inl h))

/-- The `count` oldest entries of the family are its first
`min count n` members. -/
theorem mkCumDB_oldest (n k : Nat) :
    get_oldest_tracks_from_playlist (mkCumDB n) "C" k
      = (List.range (min k n)).map cumUri := by
  unfold get_oldest_tracks_from_playlist
  rw [mkCumDB_oldestJoin, (mkCumDB_join_sorted n).insertionSort_eq]
  rw [← List.map_take, List.take_range]
  rw [List.map_map]
  rfl

/-- Deleting the first `m` indices from `range n` leaves `n - m`. -/
theorem range_filter_not_lt_length : ∀ (n m : Nat),
    ((List.range n).filter (fun j => !(decide (j < m)))).length = n - m := by
  intro n
  induction n with
  | zero => intro m; simp
  | succ p ih =>
      intro m
      rw [List.range_succ, List.filter_append, List.length_append, ih]
      by_cases hc : p < m
      · have h0 : (([p] : List Nat).filter (fun j => !(decide (j < m)))).length = 0 := by
          simp [hc]
        rw [h0]
        omega
      · have h1 : (([p] : List Nat).filter (fun j => !(decide (j < m)))).length = 1 := by
          simp [hc]
        rw [h1]
        omega

/-- In the family's tracks table, a `(tunegenie_id, spotify_uri)` probe
for member `j` against URI `i'` succeeds exactly when `i' = j`. -/
theorem mkCumDB_any_uri (n j i' : Nat) (hj : j < n) :
    (((mkCumDB n).tracks).any
      (fun t => t.tunegenie_id == cumTid j && t.spotify_uri == some (cumUri i')))
      = decide (i' = j) := by
  rw [show (mkCumDB n).tracks = (List.range n).map cumTrack from rfl]
  by_cases he : i' = j
  · subst he
    rw [decide_eq_true rfl]
    apply List.any_eq_true.mpr
    exact ⟨cumTrack i', List.mem_map_of_mem _ (List.mem_range.mpr hj), by simp [cumTrack]⟩
  · rw [decide_eq_false he]
    apply List.any_eq_false.mpr
    intro x hx
    obtain ⟨i'', _, rfl⟩ := List.mem_map.mp hx
    simp only [cumTrack, Bool.and_eq_true, beq_iff_eq, Option.some.injEq, not_and]
    intro h1 h2
    have e1 : i'' = j := natTag_injective h1
    have e2 : i'' = i' := cumUri_injective h2
    omega

/-- `range m` misses `j` exactly when `j` is at least `m`. -/
theorem all_range_ne (m j : Nat) :
    ((List.range m).all (fun x => !(decide (x = j)))) = !(decide (j < m)) := by
  by_cases h : j < m
  · rw [decide_eq_true h]
    have hf := List.all_eq_false.mpr
      (⟨j, List.mem_range.mpr h, by simp⟩ :
        ∃ x ∈ List.range m, ¬((fun x => !(decide (x = j))) x = true))
    simpa using hf
  · rw [decide_eq_false h]
    simp only [Bool.not_false]
    apply List.all_eq_true.mpr
    intro x hx
    have hne : x ≠ j := fun he => h (he ▸ List.mem_range.mp hx)
    simp [hne]

/-- Removing the family's first `m` URIs deletes exactly those `m`
membership rows. -/
theorem mkCumDB_remove_count (n m : Nat) :
    get_playlist_track_count
      (remove_tracks_from_playlist_cache (mkCumDB n) "C" ((List.range m).map cumUri)) "C"
      = n - m := by
  unfold get_playlist_track_count remove_tracks_from_playlist_cache
  rw [remove_fold_eq_filter (mkCumDB n) "C" ((List.range m).map cumUri)
    ((mkCumDB n).playlist_tracks)]
  rw [show (mkCumDB n).playlist_tracks = (List.range n).map cumRow from rfl]
  rw [List.filter_map]
  simp only [Function.comp_def]
  have hinner : (List.range n).filter (fun j =>
      ((List.range m).map cumUri).all (fun u =>
        !((cumRow j).playlist_id == "C" &&
          ((mkCumDB n).tracks).any
            (fun t => t.tunegenie_id == (cumRow j).tunegenie_id &&
              t.spotify_uri == some u))))
      = (List.range n).filter (fun j => !(decide (j < m))) := by
    apply List.filter_congr
    intro j hj
    rw [all_map_general]
    have hstep : ∀ x : Nat,
        (!((cumRow j).playlist_id == "C" &&
          ((mkCumDB n).tracks).any
            (fun t => t.tunegenie_id == (cumRow j).tunegenie_id &&
              t.spotify_uri == some (cumUri x))))
          = !(decide (x = j)) := by
      intro x
      rw [show ((cumRow j).playlist_id == "C") = true from rfl, Bool.true_and]
      rw [show (((mkCumDB n).tracks).any
          (fun t => t.tunegenie_id == (cumRow j).tunegenie_id &&
            t.spotify_uri == some (cumUri x)))
        = (((mkCumDB n).tracks).any
          (fun t => t.tunegenie_id == cumTid j && t.spotify_uri == some (cumUri x)))
        from rfl]
      rw [mkCumDB_any_uri n j x (List.mem_range.mp hj)]
    rw [funext hstep]
    exact all_range_ne m j
  rw [hinner]
  have hall : ∀ a ∈ ((List.range n).filter (fun j => !(decide (j < m)))).map cumRow,
      (a.playlist_id == "C") = true := by
    intro a ha
    obtain ⟨i, _, rfl⟩ := List.mem_map.mp ha
    rfl
  rw [List.filter_eq_self.mpr hall, List.length_map]
  exact range_filter_not_lt_length n m

/-- Claim C6 (amended): trim removes nothing when the cached count is
within the maximum; when count exceeds the maximum it computes the
eviction count `count - max + 50` and selects the
`min (count - max + 50) count` entries oldest by `(added_at, position)`
for removal — the SQL `LIMIT` cannot return more rows than exist, so
"exactly `count - max + 50`" holds whenever `max ≥ 50`; in particular
with max 100 and count 145 it removes exactly 95, leaving 50. -/
theorem c6_trim_oldest_eviction_amended (n maxT : Nat) :
    (n ≤ maxT →
      trim_cumulative_playlist_if_needed (some "C") maxT true (mkCumDB n)
        = (true, mkCumDB n)) ∧
    (maxT < n →
      get_oldest_tracks_from_playlist (mkCumDB n) "C" (n - maxT + 50)
        = (List.range (min (n - maxT + 50) n)).map cumUri ∧
      (get_oldest_tracks_from_playlist (mkCumDB n) "C" (n - maxT + 50)).length
        = min (n - maxT + 50) n ∧
      get_playlist_track_count
        ((trim_cumulative_playlist_if_needed (some "C") maxT true (mkCumDB n)).2) "C"
        = n - min (n - maxT + 50) n ∧
      (50 ≤ maxT → n - min (n - maxT + 50) n = maxT - 50)) := by
  constructor
  · intro hle
    unfold trim_cumulative_playlist_if_needed
    simp [mkCumDB_count, hle, truthyOpt]
  · intro hlt
    have holdest := mkCumDB_oldest n (n - maxT + 50)
    have hlen : (get_oldest_tracks_from_playlist (mkCumDB n) "C" (n - maxT + 50)).length
        = min (n - maxT + 50) n := by
      rw [holdest, List.length_map, List.length_range]
    have hmin : 0 < min (n - maxT + 50) n := by omega
    have hne : ((List.range (min (n - maxT + 50) n)).map cumUri).isEmpty = false := by
      have hnot : ¬ ((((List.range (min (n - maxT + 50) n)).map cumUri).isEmpty) = true) := by
        rw [List.isEmpty_iff]
        intro hnil
        have hln := congrArg List.length hnil
        simp only [List.length_map, List.length_range, List.length_nil] at hln
        omega
      exact Bool.eq_false_iff.mpr hnot
    have htrim : trim_cumulative_playlist_if_needed (some "C") maxT true (mkCumDB n)
        = (true, remove_tracks_from_playlist_cache (mkCumDB n) "C"
            ((List.range (min (n - maxT + 50) n)).map cumUri)) := by
      unfold trim_cumulative_playlist_if_needed
      rw [show (!truthyOpt (some "C")) = false from rfl]
      simp only [Bool.false_eq_true, if_false]
      rw [show ((some "C").getD "") = "C" from rfl]
      rw [mkCumDB_count]
      rw [if_neg (by omega : ¬ n ≤ maxT)]
      rw [holdest, hne]
      simp only [Bool.false_eq_true, if_false, if_true]
    refine ⟨holdest, hlen, ?_, fun h50 => by omega⟩
    rw [htrim]
    exact mkCumDB_remove_count n (min (n - maxT + 50) n)

/-- Witness for the amended C6 at max 100 and count 145: exactly 95
oldest members are selected and 50 remain. -/
theorem c6_trim_oldest_eviction_amended_witness :
    (get_oldest_tracks_from_playlist (mkCumDB 145) "C" (145 - 100 + 50)).length = 95 ∧
    get_playlist_track_count
      ((trim_cumulative_playlist_if_needed (some "C") 100 true (mkCumDB 145)).2) "C" = 50 := by
  have h := (c6_trim_oldest_eviction_amended 145 100).2 (by omega)
  refine ⟨h.2.1.trans (by omega), ?_⟩
  have h2 := h.2.2.1
  have h3 := h.2.2.2 (by omega)
  omega
theorem processSong_skip (hasToken : Bool) (remote : String → String → RemoteSearchResult)
    (now : Nat) (st : RunLoopState) (e : SourceEvent)
    (h : st.unique_tracks.any (fun kv => kv.1 == runKey e) = true) :
    processSong hasToken remote now st e = st := by
  simp [processSong, h]

/-- Processing any event preserves a recorded run key. -/
theorem processSong_key_mono (hasToken : Bool) (remote : String → String → RemoteSearchResult)
    (now : Nat) (st : RunLoopState) (e : SourceEvent) (key : String)
    (h : st.unique_tracks.any (fun kv => kv.1 == key) = true) :
    (processSong hasToken remote now st e).unique_tracks.any (fun kv => kv.1 == key) = true := by
  unfold processSong
  by_cases hc : st.unique_tracks.any (fun kv => kv.1 == runKey e) = true
  · simp [hc, h]
  · simp only [Bool.not_eq_true] at hc
    simp only [hc, Bool.false_eq_true, if_false]
    split
    · simpa [List.any_append] using Or.inl h
    · exact h

/-- The whole loop preserves a recorded run key. -/
theorem runLoop_key_mono (hasToken : Bool) (remote : String → String → RemoteSearchResult)
    (now : Nat) (key : String) :
    ∀ (songs : List SourceEvent) (st : RunLoopState),
      st.unique_tracks.any (fun kv => kv.1 == key) = true →
      (runLoop hasToken remote now st songs).unique_tracks.any (fun kv => kv.1 == key)
        = true := by
  intro songs
  induction songs with
  | nil => intro st h; simpa [runLoop] using h
  | cons s rest ih =>
      intro st h
      simp only [runLoop, List.foldl_cons] at *
      exact ih _ (processSong_key_mono hasToken remote now st s key h)

/-- Once a run key is recorded, a later event carrying that key is
dropped from the run: the run is identical to the run without it. -/
theorem runLoop_drops_recorded_dup (hasToken : Bool)
    (remote : String → String → RemoteSearchResult) (now : Nat) (e2 : SourceEvent) :
    ∀ (mid rest : List SourceEvent) (st : RunLoopState),
      st.unique_tracks.any (fun kv => kv.1 == runKey e2) = true →
      runLoop hasToken remote now st (mid ++ e2 :: rest)
        = runLoop hasToken remote now st (mid ++ rest) := by
  intro mid
  induction mid with
  | nil =>
      intro rest st h
      simp only [List.nil_append, runLoop, List.foldl_cons]
      rw [processSong_skip hasToken remote now st e2 h]
  | cons m mid ih =>
      intro rest st h
      simp only [List.cons_append, runLoop, List.foldl_cons] at *
      exact ih rest _ (processSong_key_mono hasToken remote now st m (runKey e2) h)

/-- Claim C7 (amended): run-local deduplication drops a later event
with the same run key (`lower(artist)_lower(title)`) only when an
earlier event with that key resolved successfully — either its key was
already recorded, or resolving it yields a truthy URI.  In that case
the later duplicate is silently dropped (the run equals the run without
that event, so no resolution is attempted for it).  When the earlier
attempt found nothing, the key is not recorded and the duplicate is
resolved again (see the counterexample). -/
theorem c7_dedup_drops_after_successful_resolution
    (hasToken : Bool) (remote : String → String → RemoteSearchResult) (now : Nat)
    (st : RunLoopState) (e1 e2 : SourceEvent) (mid rest : List SourceEvent)
    (hkey : runKey e1 = runKey e2)
    (hres : st.unique_tracks.any (fun kv => kv.1 == runKey e1) = true ∨
      truthyOpt (search_spotify_track hasToken (remote e1.artist e1.title) st.db now
        e1.tunegenie_id e1.artist e1.title).1 = true) :
    runLoop hasToken remote now st (e1 :: (mid ++ e2 :: rest))
      = runLoop hasToken remote now st (e1 :: (mid ++ rest)) := by
  have hstep : (processSong hasToken remote now st e1).unique_tracks.any
      (fun kv => kv.1 == runKey e2) = true := by
    rw [← hkey]
    by_cases hc : st.unique_tracks.any (fun kv => kv.1 == runKey e1) = true
    · exact processSong_key_mono hasToken remote now st e1 (runKey e1) hc
    · rcases hres with h | h
      · exact absurd h hc
      · simp only [Bool.not_eq_true] at hc
        unfold processSong
        simp [hc, h, List.any_append]
  simp only [runLoop, List.foldl_cons]
  exact runLoop_drops_recorded_dup hasToken remote now e2 mid rest _ hstep

/-- Witness for the amended C7: two identical-key events with distinct
ids, the first resolving successfully — the run equals the run without
the duplicate. -/
theorem c7_dedup_drops_after_successful_resolution_witness :
    runLoop true (fun _ _ => RemoteSearchResult.found "spotify:track:x" none none none) 3
      (initLoopState dbEmpty) [evDupA, evDupB]
    = runLoop true (fun _ _ => RemoteSearchResult.found "spotify:track:x" none none none) 3
      (initLoopState dbEmpty) [evDupA] := by
  have h := c7_dedup_drops_after_successful_resolution true
    (fun _ _ => RemoteSearchResult.found "spotify:track:x" none none none) 3
    (initLoopState dbEmpty) evDupA evDupB [] [] rfl (Or.inr (by decide))
  simpa using h

/-- Claim C8: `cleanup_old_data` deletes exactly the `tracks` rows with
NULL `spotify_uri` whose `last_found` is older than the cutoff, returns
the number of rows deleted, leaves every resolved row in place
regardless of its age, and does not touch the other tables. -/
theorem c8_cleanup_deletes_only_stale_unresolved (db : DB) (now days : Nat) :
    (cleanup_old_data db now days).2
      = (db.tracks.filter (fun t =>
          decide (t.last_found < now - days * 86400) && t.spotify_uri.isNone)).length ∧
    (∀ t : TrackRow, t ∈ (cleanup_old_data db now days).1.tracks ↔
      (t ∈ db.tracks ∧ ¬(t.last_found < now - days * 86400 ∧ t.spotify_uri = none))) ∧
    (∀ t ∈ db.tracks, t.spotify_uri ≠ none → t ∈ (cleanup_old_data db now days).1.tracks) ∧
    (cleanup_old_data db now days).1.playlists = db.playlists ∧
    (cleanup_old_data db now days).1.playlist_tracks = db.playlist_tracks := by
  refine ⟨?_, ?_, ?_, rfl, rfl⟩
  · have h := List.length_eq_length_filter_add
      (l := db.tracks)
      (fun t => decide (t.last_found < now - days * 86400) && t.spotify_uri.isNone)
    simp only [cleanup_old_data]
    omega
  · intro t
    constructor
    · intro h
      have h' := List.mem_filter.mp h
      refine ⟨h'.1, ?_⟩
      rintro ⟨hlt, hnone⟩
      have hA := decide_eq_true hlt
      have hB := h'.2
      rw [hA, hnone] at hB
      simp at hB
    · rintro ⟨hmem, hnot⟩
      refine List.mem_filter.mpr ⟨hmem, ?_⟩
      cases huri : t.spotify_uri with
      | some v => simp [huri]
      | none =>
          have hlt : ¬ t.last_found < now - days * 86400 := fun hlt => hnot ⟨hlt, huri⟩
          simp [huri, hlt]
  · intro t ht hres
    refine List.mem_filter.mpr ⟨ht, ?_⟩
    cases huri : t.spotify_uri with
    | some v => simp [huri]
    | none => exact absurd huri hres

/-- Witness for C8 on a database holding one stale unresolved row and
one equally old resolved row, with a 30-day window ending at day 100:
exactly one row is deleted and the old resolved row survives. -/
theorem c8_cleanup_deletes_only_stale_unresolved_witness :
    (cleanup_old_data dbCleanupDemo (100 * 86400) 30).2 = 1 ∧
    ⟨"old_ok", "B", "R", some "u9", none, none, none, "b_r", 0, 0⟩
      ∈ (cleanup_old_data dbCleanupDemo (100 * 86400) 30).1.tracks := by
  have h := c8_cleanup_deletes_only_stale_unresolved dbCleanupDemo (100 * 86400) 30
  refine ⟨h.1.trans (by decide), ?_⟩
  exact h.2.2.1 _ (by decide) (by decide)

/-- Claim C9: the dictionary built by `get_spotify_config` has exactly
the keys `client_id`, `client_secret`, `refresh_token` and
`playlist_id`; consequently the `self.spotify_config` subscripts for
`daily_playlist_id` (in `clear_playlist`), `cumulative_playlist_id`
(in `get_existing_tracks_from_cumulative_playlist` and
`trim_cumulative_playlist_if_needed`) and `max_cumulative_tracks`
(in `trim_cumulative_playlist_if_needed`) all raise `KeyError`. -/
theorem c9_spotify_config_lacks_playlist_keys (c : SpotifyFileConfig) :
    (get_spotify_config c).map Prod.fst
      = ["client_id", "client_secret", "refresh_token", "playlist_id"] ∧
    clear_playlist_config_read (get_spotify_config c) = Except.error "daily_playlist_id" ∧
    cumulative_config_read (get_spotify_config c) = Except.error "cumulative_playlist_id" ∧
    max_tracks_config_read (get_spotify_config c) = Except.error "max_cumulative_tracks" := by
  exact ⟨rfl, rfl, rfl, rfl⟩

/-- Claim C10: in any run that actually performs the source-feed
request (the token refresh succeeded and the cache-bootstrap step was
skipped — on a bootstrap run an uncaught `KeyError` aborts the run
before any fetch), a raised request makes `fetch_tunegenie_songs`
return the empty list and `run` exits with status 0 leaving the whole
database — playlists, mappings and memberships — untouched, exactly as
it does on a genuinely empty day. -/
theorem c10_fetch_error_is_empty_window (c : SpotifyFileConfig) (w : RunWorld) (db : DB)
    (now : Nat) (htoken : w.tokenOk = true)
    (hboot : (get_cache_stats db).playlist_count ≠ 0)
    (hfetch : w.fetch = FetchOutcome.raised) :
    fetch_tunegenie_songs w.fetch = [] ∧
    run_until_fetch c w db now = RunPrefixOutcome.exitNoSongs db ∧
    exitCodeOf (run_until_fetch c w db now) = some 0 ∧
    dbOf (run_until_fetch c w db now) = db ∧
    run_until_fetch c { w with fetch := FetchOutcome.ok [] } db now
      = RunPrefixOutcome.exitNoSongs db := by
  have hb : ((get_cache_stats db).playlist_count == 0) = false := by
    simpa using hboot
  obtain ⟨tok, rdaily, rcum, f⟩ := w
  simp only at htoken hfetch
  subst htoken
  subst hfetch
  have hinit : ∀ w' : RunWorld,
      initialize_cache (get_spotify_config c) w' db now = Except.ok db := by
    intro w'
    simp [initialize_cache, hb]
  refine ⟨by simp [fetch_tunegenie_songs], ?_, ?_, ?_, ?_⟩
  · simp [run_until_fetch, hinit, fetch_tunegenie_songs]
  · simp [run_until_fetch, hinit, fetch_tunegenie_songs, exitCodeOf]
  · simp [run_until_fetch, hinit, fetch_tunegenie_songs, dbOf]
  · simp [run_until_fetch, hinit, fetch_tunegenie_songs, parseItems]

/-- Witness for C10 at a concrete world: token ok, cache already knows
a playlist, fetch raises. -/
theorem c10_fetch_error_is_empty_window_witness :
    run_until_fetch fileConfigDemo worldFetchRaised dbBootstrapped 3
      = RunPrefixOutcome.exitNoSongs dbBootstrapped ∧
    exitCodeOf (run_until_fetch fileConfigDemo worldFetchRaised dbBootstrapped 3) = some 0 := by
  have h := c10_fetch_error_is_empty_window fileConfigDemo worldFetchRaised dbBootstrapped 3
    (by decide) (by decide) (by decide)
  exact ⟨h.2.1, h.2.2.1⟩

end TG
